import Mathlib

/-!
Verification of the SSE event encoder of `sse-starlette`
(files `sse_starlette/event_function.py` and `sse_starlette/event_class.py`).

Modelling conventions:
* Python `str` and `bytes` values are both embedded as Lean `String`s
  (`ByteStr` abbreviates `String` for the byte-mode variants); every
  operation the encoder performs — concatenation, splitting or deleting the
  newline patterns CRLF, CR, LF — acts identically on the two Python types,
  and the final `.encode("utf-8")` of the text variants is the identity on
  this representation.
* A Python value that may be `None` is an `Option`.
* The `retry` attribute is typed `Optional[int]` but in fact receives an
  arbitrary Python value; `PyRetry` enumerates the value kinds the claims
  exercise, with `isInstInt` embedding Python's `isinstance(·, int)`
  (true for `bool`, which subclasses `int`) and `pyStr` embedding `str(·)`.
* An encoder that can raise returns `Except String out`: `Except.error`
  models a raised `TypeError`, and no buffer is returned on that path.
-/

namespace SSEStarlette

/-- Byte strings of the byte-mode variants, embedded as Lean strings
(one character per byte). -/
abbrev ByteStr := String

/-- One splitting step of the regular expression `\r\n|\r|\n`
(`_LINE_SEP_EXPR` in both source files): leftmost alternative first, so a
CRLF pair is consumed as a single separator. -/
def lineSplitAux : List Char → List (List Char)
  | [] => [[]]
  | '\r' :: '\n' :: rest => [] :: lineSplitAux rest
  | '\r' :: rest => [] :: lineSplitAux rest
  | '\n' :: rest => [] :: lineSplitAux rest
  | c :: rest =>
    match lineSplitAux rest with
    | [] => [[c]]
    | l :: ls => (c :: l) :: ls

/-- Embedding of `re.split(r"\r\n|\r|\n", s)`: split `s` at every newline sequence,
treating CRLF, lone CR and lone LF alike. -/
def lineSplit (s : String) : List String :=
  (lineSplitAux s.data).map fun l => String.mk l

/-- Deletion step of `_LINE_SEP_EXPR.sub("", s)`: every newline sequence is
removed (a CRLF pair is one match, but deletion makes that indistinguishable
from removing the two characters separately). -/
def lineSubAux : List Char → List Char
  | [] => []
  | '\r' :: '\n' :: rest => lineSubAux rest
  | '\r' :: rest => lineSubAux rest
  | '\n' :: rest => lineSubAux rest
  | c :: rest => c :: lineSubAux rest

/-- Embedding of `_LINE_SEP_EXPR.sub("", s)`: `s` with every newline sequence deleted. -/
def lineSub (s : String) : String :=
  String.mk (lineSubAux s.data)

/-- Holds (as `true`) iff the string contains no carriage return and no linefeed. -/
def noNewline (s : String) : Bool :=
  s.data.all fun c => !(c = '\r' || c = '\n')

/-- The kinds of Python value the claims assign to the `retry` attribute.
A float's decimal literal is carried only so distinct floats stay distinct;
its text never reaches an output buffer. -/
inductive PyRetry where
  | int (n : Int)
  | bool (b : Bool)
  | str (s : String)
  | float (lit : String)
deriving DecidableEq

/-- Python `isinstance(r, int)`: `True` exactly for `int` and `bool` values
(`bool` is a subclass of `int`). -/
def PyRetry.isInstInt : PyRetry → Bool
  | .int _ => true
  | .bool _ => true
  | .str _ => false
  | .float _ => false

/-- Python `str(r)` for a retry value: decimal for an integer,
`True`/`False` for a boolean, the string itself otherwise. -/
def PyRetry.pyStr : PyRetry → String
  | .int n => toString n
  | .bool true => "True"
  | .bool false => "False"
  | .str s => s
  | .float lit => lit

/-- The comment block: for each chunk of `_LINE_SEP_EXPR.split(comment)`
the loop appends `": " + chunk + sep` to the output buffer; nothing is
written when `comment` is `None`. -/
def commentSection : Option String → String → String
  | Option.none, _ => ""
  | Option.some c, sep =>
    (lineSplit c).foldl (fun buf chunk => buf ++ (": " ++ chunk ++ sep)) ""

/-- The id line: `"id: " + _LINE_SEP_EXPR.sub("", id) + sep`, written only
when `id` is not `None`. -/
def idSection : Option String → String → String
  | Option.none, _ => ""
  | Option.some i, sep => "id: " ++ lineSub i ++ sep

/-- The event line: `"event: " + _LINE_SEP_EXPR.sub("", event) + sep`,
written only when `event` is not `None`. -/
def eventSection : Option String → String → String
  | Option.none, _ => ""
  | Option.some ev, sep => "event: " ++ lineSub ev ++ sep

/-- The data block: for each chunk of `_LINE_SEP_EXPR.split(data)` the loop
appends `"data: " + chunk + sep`; nothing is written when `data` is
`None`. -/
def dataSection : Option String → String → String
  | Option.none, _ => ""
  | Option.some d, sep =>
    (lineSplit d).foldl (fun buf chunk => buf ++ ("data: " ++ chunk ++ sep)) ""

/-- The field-serialization body shared — token for token — by
`ServerSentEvent.encode` and `event_from_bytes` in `event_function.py` and
by `ServerSentEventABC._encode` in `event_class.py`: comment block, id
line, event line, data block, retry line (after the
`isinstance(retry, int)` check, raising `TypeError` otherwise), then one
unconditional trailing separator.  The buffer accumulated before a raise is
discarded, so the error path returns no output. -/
def encodeFields (comment : Option String) (id : Option String)
    (event : Option String) (data : Option String) (retry : Option PyRetry)
    (sep : String) : Except String String :=
  let buf := commentSection comment sep
  let buf := buf ++ idSection id sep
  let buf := buf ++ eventSection event sep
  let buf := buf ++ dataSection data sep
  match retry with
  | Option.none => Except.ok (buf ++ sep)
  | Option.some r =>
    if r.isInstInt then
      Except.ok (buf ++ ("retry: " ++ r.pyStr ++ sep) ++ sep)
    else
      Except.error "retry argument must be int"

/-- From `event_function.py` — `ServerSentEvent.DEFAULT_SEPARATOR` (also
`ServerSentEvent.DEFAULT_SEPARATOR` in `event_class.py`). -/
def DEFAULT_SEPARATOR : String := "\r\n"

/-- From `event_function.py` — module-level `DEFAULT_SEPARATOR_BYTES`, the
default separator of `event_from_bytes`. -/
def DEFAULT_SEPARATOR_BYTES : ByteStr := "\r\n"

/-- From `event_function.py` — `ServerSentEvent`: the six attributes set by
`__init__` in parameter order; `data` is stored unchanged (claims exercise
string payloads, on which the `str(...)` at encode time is the identity),
and `sep = None` means the default separator is used. -/
structure SSE where
  data : Option String
  event : Option String
  id : Option String
  retry : Option PyRetry
  comment : Option String
  sep : Option String
deriving DecidableEq

/-- The `_sep` attribute: `sep if sep is not None else DEFAULT_SEPARATOR`. -/
def SSE.sepEff (e : SSE) : String :=
  e.sep.getD DEFAULT_SEPARATOR

/-- From `event_function.py` — `ServerSentEvent.encode`: the shared
field-serialization body over the stored attributes, with `_sep`. -/
def SSE.encode (e : SSE) : Except String String :=
  encodeFields e.comment e.id e.event e.data e.retry e.sepEff

/-- From `event_function.py` — `event_from_bytes(data, event, id, retry,
comment, sep)`: the shared body over byte strings with default separator
`DEFAULT_SEPARATOR_BYTES`.  (The source function also takes an unused
`self` parameter, which the body never reads; it is omitted here.) -/
def event_from_bytes (data : Option ByteStr) (event : Option ByteStr)
    (id : Option ByteStr) (retry : Option PyRetry) (comment : Option ByteStr)
    (sep : Option ByteStr) : Except String ByteStr :=
  encodeFields comment id event data retry (sep.getD DEFAULT_SEPARATOR_BYTES)

/-- Python `str(x)` of an optional string: `str(None)` is the four-letter
string `"None"`, and `str` of a string is the string itself. -/
def pyStrOpt : Option String → String
  | Option.none => "None"
  | Option.some s => s

/-- From `event_class.py` — `ServerSentEvent` (the text subclass): its
`__init__` stores `self.data = str(data)`, so `data` is a plain string —
`"None"` when the argument was absent — and is never `None` afterwards.
The remaining attributes are stored unchanged and `_sep` defaults to
`"\r\n"`. -/
structure SSEClassText where
  data : String
  event : Option String
  id : Option String
  retry : Option PyRetry
  comment : Option String
  sep : String
deriving DecidableEq

/-- From `event_class.py` — `ServerSentEvent.__init__(data, event, id, retry,
comment, sep)`. -/
def SSEClassText.init (data : Option String) (event : Option String)
    (id : Option String) (retry : Option PyRetry) (comment : Option String)
    (sep : Option String) : SSEClassText :=
  SSEClassText.mk (pyStrOpt data) event id retry comment
    (sep.getD DEFAULT_SEPARATOR)

/-- Embedding of the text subclass's `_LINE_SEP_EXPR.sub(b"", s)`: a str
pattern substituted with the bytes literal `b""`.  CPython leaves `s`
untouched when nothing matches, but raises `TypeError` ("sequence item 1:
expected str instance, bytes found") as soon as a replacement is performed,
i.e. whenever `s` contains a newline. -/
def subBytesOnStr (s : String) : Except String String :=
  if noNewline s then Except.ok s
  else Except.error "sequence item 1: expected str instance, bytes found"

/-- From `event_class.py` — `ServerSentEvent.encode` (the text subclass):
runs the inherited `_encode` into a `StringIO`.  That helper was written
for the byte subclass, so on the text side two of its writes are type
errors: the id/event substitution uses the bytes literal `b""` on the str
pattern (`TypeError` exactly when the field contains a newline, untouched
pass-through otherwise), and a `retry` that passes the
`isinstance(retry, int)` check is written as
`str(retry).encode("utf-8")` — a bytes object — into the text buffer
(`TypeError`, real message "string argument expected, got 'bytes'").
Comment and data are pure str operations and succeed.  A raise propagates
and the buffer accumulated so far is discarded.  Since `self.data` is a
string after `__init__`, the `if self.data is not None` guard is always
taken. -/
def SSEClassText.encode (e : SSEClassText) : Except String String := do
  let buf := commentSection e.comment e.sep
  let buf ← match e.id with
    | Option.none => pure buf
    | Option.some i => do
      let cleaned ← subBytesOnStr i
      pure (buf ++ ("id: " ++ cleaned ++ e.sep))
  let buf ← match e.event with
    | Option.none => pure buf
    | Option.some ev => do
      let cleaned ← subBytesOnStr ev
      pure (buf ++ ("event: " ++ cleaned ++ e.sep))
  let buf := buf ++ dataSection (Option.some e.data) e.sep
  match e.retry with
  | Option.none => pure (buf ++ e.sep)
  | Option.some r =>
    if r.isInstInt then
      Except.error "string argument expected, got bytes"
    else
      Except.error "retry argument must be int"

/-- From `event_class.py` — `ServerSentEventBytes.DEFAULT_SEPARATOR`. -/
def SSEClassBytes.DEFAULT_SEPARATOR : ByteStr := "\n"

/-- From `event_class.py` — `ServerSentEventBytes`: attributes as stored by its
`__init__`; all byte-valued fields kept unchanged, `_sep` defaulting to a
bare linefeed. -/
structure SSEClassBytes where
  data : Option ByteStr
  event : Option ByteStr
  id : Option ByteStr
  retry : Option PyRetry
  comment : Option ByteStr
  sep : ByteStr
deriving DecidableEq

/-- From `event_class.py` — `ServerSentEventBytes.__init__(data, event, id,
retry, comment, sep)`. -/
def SSEClassBytes.init (data : Option ByteStr) (event : Option ByteStr)
    (id : Option ByteStr) (retry : Option PyRetry) (comment : Option ByteStr)
    (sep : Option ByteStr) : SSEClassBytes :=
  SSEClassBytes.mk data event id retry comment
    (sep.getD SSEClassBytes.DEFAULT_SEPARATOR)

/-- From `event_class.py` — the inherited writer helper
`ServerSentEventABC._encode` applied to a fresh byte buffer: the shared
field-serialization body over the stored attributes.  This is the routine
`ServerSentEventBytes.encode` was evidently meant to delegate to. -/
def SSEClassBytes.encodeBody (e : SSEClassBytes) : Except String ByteStr :=
  encodeFields e.comment e.id e.event e.data e.retry e.sep

/-- From `event_class.py` — `ServerSentEventBytes.encode`: its body reads
`buffer = io.BytesIO(); self.encode(buffer.write); return
buffer.getvalue()`.  The call re-invokes `encode` itself instead of the
writer helper `self._encode`, so the method is modelled as a self-call,
with a fuel parameter bounding the recursion depth; no finite depth
produces a value.  (In CPython the very first self-call already raises a
`TypeError`, because `encode` accepts no positional argument; under either
reading the method never writes a field and never returns a frame.) -/
def SSEClassBytes.encodeFuel : Nat → SSEClassBytes → Option ByteStr
  | 0, _ => Option.none
  | Nat.succ n, e => SSEClassBytes.encodeFuel n e

/-- A field mapping passed to `ensure_bytes` and expanded with
`ServerSentEvent(**data)`: one entry per keyword parameter.  An absent key
and a key mapped to `None` are both `Option.none` — the constructor cannot
tell them apart, and the `"sep"` assignment changes the mapping in either
case. -/
structure FieldDict where
  data : Option String
  event : Option String
  id : Option String
  retry : Option PyRetry
  comment : Option String
  sep : Option String
deriving DecidableEq

/-- Embedding of `ServerSentEvent(**d)`: the event built from a field mapping. -/
def FieldDict.toSSE (d : FieldDict) : SSE :=
  SSE.mk d.data d.event d.id d.retry d.comment d.sep

/-- From `event_function.py` — the `dict` branch of `ensure_bytes`: the
statement `data["sep"] = sep` writes the dispatch-level separator into the
caller's mapping in place, then `ServerSentEvent(**data).encode()` runs.
The result pairs the encode outcome with the mapping as the caller
observes it after the call. -/
def ensure_bytes_dict (d : FieldDict) (sep : String) :
    Except String ByteStr × FieldDict :=
  let d2 := FieldDict.mk d.data d.event d.id d.retry d.comment
    (Option.some sep)
  ((FieldDict.toSSE d2).encode, d2)

/-- The shapes of value the dispatch function `ensure_bytes` distinguishes
with its `isinstance` chain: a pre-encoded byte buffer, an event instance,
a mapping of constructor fields, or any other value (used as the `data`
payload; `event_function.py` applies `str(...)` to it, the identity on the
string payloads exercised here). -/
inductive EncodeInput where
  | bytes (b : ByteStr)
  | sse (e : SSE)
  | dict (d : FieldDict)
  | raw (v : String)

/-- From `event_function.py` — `ensure_bytes(data, sep)`: pass a byte buffer
through unchanged, encode an event instance directly (its own separator in
force), build and encode an event from a field mapping (after the `"sep"`
assignment), and wrap any other value as the `data` payload of a new event
with the dispatch-level separator. -/
def ensure_bytes : EncodeInput → String → Except String ByteStr
  | EncodeInput.bytes b, _ => Except.ok b
  | EncodeInput.sse e, _ => e.encode
  | EncodeInput.dict d, sep => (ensure_bytes_dict d sep).1
  | EncodeInput.raw v, sep =>
    (SSE.mk (Option.some v) Option.none Option.none Option.none Option.none
      (Option.some sep)).encode

/-- Concatenation of emitted lines, in order. -/
def joinLines : List String → String
  | [] => ""
  | l :: ls => l ++ joinLines ls

theorem stringData_append (a b : String) : (a ++ b).data = a.data ++ b.data := by
  cases a
  cases b
  rfl

theorem noNewline_spec (s : String) (h : noNewline s = true) :
    ∀ c ∈ s.data, c ≠ '\r' ∧ c ≠ '\n' := by
  intro c hc
  have h2 := List.all_eq_true.mp h c hc
  constructor <;> intro he <;> subst he <;> simp at h2

theorem lineSplitAux_ne_nil (l : List Char) : lineSplitAux l ≠ [] := by
  induction l using lineSplitAux.induct with
  | case1 => simp [lineSplitAux]
  | case2 rest ih => simp [lineSplitAux]
  | case3 rest hne ih =>
    rw [lineSplitAux]
    · simp
    · exact hne
  | case4 rest ih => simp [lineSplitAux]
  | case5 c rest h1 h2 h3 heq ih => exact absurd heq ih
  | case6 c rest h1 h2 h3 l ls heq ih =>
    rw [lineSplitAux]
    · rw [heq]
      simp
    · exact h1
    · exact h2
    · exact h3

theorem lineSplitAux_cons_other (c : Char) (rest : List Char)
    (h1 : c ≠ '\r') (h2 : c ≠ '\n') :
    lineSplitAux (c :: rest)
      = (c :: (lineSplitAux rest).headI) :: (lineSplitAux rest).tail := by
  rw [lineSplitAux]
  · cases h : lineSplitAux rest with
    | nil => exact absurd h (lineSplitAux_ne_nil rest)
    | cons l ls => simp
  · intro r hc hr
    exact h1 hc
  · exact fun hc => h1 hc
  · exact fun hc => h2 hc

theorem lineSplitAux_append (a : List Char) (rest : List Char)
    (h : ∀ c ∈ a, c ≠ '\r' ∧ c ≠ '\n') :
    lineSplitAux (a ++ rest)
      = (a ++ (lineSplitAux rest).headI) :: (lineSplitAux rest).tail := by
  induction a with
  | nil =>
    simp only [List.nil_append]
    cases h' : lineSplitAux rest with
    | nil => exact absurd h' (lineSplitAux_ne_nil rest)
    | cons l ls => simp
  | cons c a ih =>
    have hc := h c (by simp)
    have ha : ∀ x ∈ a, x ≠ '\r' ∧ x ≠ '\n' := fun x hx => h x (by simp [hx])
    rw [List.cons_append, lineSplitAux_cons_other c (a ++ rest) hc.1 hc.2, ih ha]
    simp

theorem lineSplitAux_nonl (a : List Char)
    (h : ∀ c ∈ a, c ≠ '\r' ∧ c ≠ '\n') : lineSplitAux a = [a] := by
  have h2 := lineSplitAux_append a [] h
  simpa [lineSplitAux] using h2

theorem lineSplitAux_crlf (rest : List Char) :
    lineSplitAux ('\r' :: '\n' :: rest) = [] :: lineSplitAux rest := rfl

theorem lineSplitAux_cr (rest : List Char)
    (h : ∀ c ∈ rest, c ≠ '\r' ∧ c ≠ '\n') :
    lineSplitAux ('\r' :: rest) = [] :: lineSplitAux rest := by
  cases rest with
  | nil => rfl
  | cons d rest2 =>
    have hd := (h d (by simp)).2
    rw [lineSplitAux]
    intro r hr
    injection hr with hh ht
    exact hd hh

theorem lineSplitAux_lf (rest : List Char) :
    lineSplitAux ('\n' :: rest) = [] :: lineSplitAux rest := rfl

theorem foldl_write (pre sep : String) (l : List String) (buf : String) :
    l.foldl (fun b chunk => b ++ (pre ++ chunk ++ sep)) buf
      = buf ++ joinLines (l.map fun chunk => pre ++ chunk ++ sep) := by
  induction l generalizing buf with
  | nil => simp [joinLines]
  | cons x xs ih =>
    simp only [List.foldl_cons, List.map_cons, joinLines]
    rw [ih, String.append_assoc]

theorem lineSubAux_no_newline (l : List Char) :
    ∀ c ∈ lineSubAux l, c ≠ '\r' ∧ c ≠ '\n' := by
  induction l using lineSubAux.induct with
  | case1 => simp [lineSubAux]
  | case2 rest ih => exact ih
  | case3 rest hne ih =>
    rw [lineSubAux]
    · exact ih
    · exact hne
  | case4 rest ih => exact ih
  | case5 c rest h1 h2 h3 ih =>
    rw [lineSubAux]
    · intro x hx
      rcases List.mem_cons.mp hx with hx | hx
      · subst hx
        exact ⟨fun hc => h2 hc, fun hc => h3 hc⟩
      · exact ih x hx
    · exact h1
    · exact h2
    · exact h3

theorem noNewline_lineSub (s : String) : noNewline (lineSub s) = true := by
  refine List.all_eq_true.mpr ?_
  intro c hc
  have h := lineSubAux_no_newline s.data c hc
  simp [h.1, h.2]

theorem lineSplit_sandwich (a b : String)
    (ha : noNewline a = true) (hb : noNewline b = true) :
    lineSplit (a ++ "\r\n" ++ b) = [a, b]
      ∧ lineSplit (a ++ "\r" ++ b) = [a, b]
      ∧ lineSplit (a ++ "\n" ++ b) = [a, b] := by
  have ha2 := noNewline_spec a ha
  have hb2 := noNewline_spec b hb
  have hbsplit : lineSplitAux b.data = [b.data] := lineSplitAux_nonl b.data hb2
  refine ⟨?_, ?_, ?_⟩
  · have hd : (a ++ "\r\n" ++ b).data = a.data ++ ('\r' :: '\n' :: b.data) := by
      rw [stringData_append, stringData_append]
      simp
    rw [lineSplit, hd, lineSplitAux_append a.data _ ha2, lineSplitAux_crlf, hbsplit]
    simp [lineSplit]
  · have hd : (a ++ "\r" ++ b).data = a.data ++ ('\r' :: b.data) := by
      rw [stringData_append, stringData_append]
      simp
    rw [lineSplit, hd, lineSplitAux_append a.data _ ha2, lineSplitAux_cr b.data hb2,
      hbsplit]
    simp [lineSplit]
  · have hd : (a ++ "\n" ++ b).data = a.data ++ ('\n' :: b.data) := by
      rw [stringData_append, stringData_append]
      simp
    rw [lineSplit, hd, lineSplitAux_append a.data _ ha2, lineSplitAux_lf, hbsplit]
    simp [lineSplit]

/-- C1: evaluation at the failing input.  The claim says an event with all
five fields absent encodes to exactly one separator; `event_class.py`'s
text class stores `data = str(None) = "None"` at construction, so its
all-absent event encodes to `"data: None\r\n\r\n"` instead, while the
`event_function.py` encoders do return exactly one separator. -/
theorem C1_empty_event_eval :
    SSEClassText.encode (SSEClassText.init Option.none Option.none
        Option.none Option.none Option.none Option.none)
      = Except.ok "data: None\r\n\r\n"
    ∧ SSE.encode (SSE.mk Option.none Option.none Option.none Option.none
        Option.none Option.none) = Except.ok "\r\n"
    ∧ event_from_bytes Option.none Option.none Option.none Option.none
        Option.none Option.none = Except.ok "\r\n" := by
  refine ⟨?_, ?_, ?_⟩ <;> rfl

/-- C2 counterexample: the module-level byte-mode default separator of
`event_function.py` is CRLF, not a bare linefeed, and the byte-mode
encoding of comment "keep-alive" through `event_from_bytes` with the
default separator is `": keep-alive\r\n\r\n"`, not the
`": keep-alive\n\n"` the claim states. -/
theorem C2_counterexample :
    DEFAULT_SEPARATOR_BYTES = "\r\n"
    ∧ event_from_bytes Option.none Option.none Option.none Option.none
        (Option.some "keep-alive") Option.none
      = Except.ok ": keep-alive\r\n\r\n"
    ∧ ("\r\n" : ByteStr) ≠ "\n"
    ∧ (": keep-alive\r\n\r\n" : ByteStr) ≠ ": keep-alive\n\n" := by
  refine ⟨rfl, rfl, by decide, by decide⟩

/-- C2 (amended): both text representations default to CRLF; of the two
byte-mode paths, the class `ServerSentEventBytes` defaults to a bare
linefeed — its writer helper turns comment "keep-alive" with no other
fields into exactly `": keep-alive\n\n"` — while the function
`event_from_bytes` defaults to CRLF and yields
`": keep-alive\r\n\r\n"`. -/
theorem C2_separator_defaults :
    DEFAULT_SEPARATOR = "\r\n"
    ∧ SSEClassBytes.DEFAULT_SEPARATOR = "\n"
    ∧ DEFAULT_SEPARATOR_BYTES = "\r\n"
    ∧ SSEClassBytes.encodeBody (SSEClassBytes.init Option.none Option.none
        Option.none Option.none (Option.some "keep-alive") Option.none)
      = Except.ok ": keep-alive\n\n"
    ∧ event_from_bytes Option.none Option.none Option.none Option.none
        (Option.some "keep-alive") Option.none
      = Except.ok ": keep-alive\r\n\r\n" := by
  refine ⟨rfl, rfl, rfl, rfl, rfl⟩

/-- C3: `ServerSentEventBytes.encode` re-invokes itself instead of the
writer helper `_encode`, so no recursion depth lets the self-call complete:
for every fuel bound and every event, the modelled method produces no wire
frame. -/
theorem C3_bytes_encode_no_frame (fuel : Nat) (e : SSEClassBytes) :
    SSEClassBytes.encodeFuel fuel e = Option.none := by
  induction fuel with
  | zero => rfl
  | succ n ih => exact ih

/-- C4: a `retry` value that is a string or a float makes `encode` raise
`TypeError` and return no output buffer, while `retry` absent or an
integer never takes that error path. -/
theorem C4_retry_type_check (e : SSE) :
    (((∃ s, e.retry = Option.some (PyRetry.str s))
        ∨ (∃ lit, e.retry = Option.some (PyRetry.float lit))) →
      e.encode = Except.error "retry argument must be int")
    ∧ ((e.retry = Option.none ∨ ∃ n, e.retry = Option.some (PyRetry.int n)) →
      ∃ out, e.encode = Except.ok out) := by
  constructor
  · rintro (⟨s, hs⟩ | ⟨lit, hs⟩) <;>
      simp [SSE.encode, encodeFields, hs, PyRetry.isInstInt]
  · rintro (hs | ⟨n, hs⟩)
    · exact ⟨commentSection e.comment e.sepEff ++ idSection e.id e.sepEff
        ++ eventSection e.event e.sepEff ++ dataSection e.data e.sepEff
        ++ e.sepEff, by simp [SSE.encode, encodeFields, hs]⟩
    · exact ⟨commentSection e.comment e.sepEff ++ idSection e.id e.sepEff
        ++ eventSection e.event e.sepEff ++ dataSection e.data e.sepEff
        ++ ("retry: " ++ (PyRetry.int n).pyStr ++ e.sepEff) ++ e.sepEff,
        by simp [SSE.encode, encodeFields, hs, PyRetry.isInstInt]⟩

/-- Witness for C4 at concrete inputs: a string retry value `"5s"` is
rejected and an integer retry value `7` is accepted. -/
theorem C4_witness :
    (SSE.mk Option.none Option.none Option.none
        (Option.some (PyRetry.str "5s")) Option.none Option.none).encode
      = Except.error "retry argument must be int"
    ∧ ∃ out, (SSE.mk Option.none Option.none Option.none
        (Option.some (PyRetry.int 7)) Option.none Option.none).encode
      = Except.ok out :=
  ⟨(C4_retry_type_check (SSE.mk Option.none Option.none Option.none
      (Option.some (PyRetry.str "5s")) Option.none Option.none)).1
      (Or.inl ⟨"5s", rfl⟩),
   (C4_retry_type_check (SSE.mk Option.none Option.none Option.none
      (Option.some (PyRetry.int 7)) Option.none Option.none)).2
      (Or.inr ⟨7, rfl⟩)⟩

/-- C5: the encoder emits the fields in the fixed order comment, id,
event, data, retry, then the terminator, each only when present, and the
concrete scenario data `"line1\nline2"`, event `"update"`, id `"42"` with
the default text separator encodes to exactly
`"id: 42\r\nevent: update\r\ndata: line1\r\ndata: line2\r\n\r\n"`. -/
theorem C5_field_order (data event id comment sep : Option String) :
    (SSE.encode (SSE.mk data event id Option.none comment sep)
      = Except.ok (commentSection comment (sep.getD DEFAULT_SEPARATOR)
          ++ idSection id (sep.getD DEFAULT_SEPARATOR)
          ++ eventSection event (sep.getD DEFAULT_SEPARATOR)
          ++ dataSection data (sep.getD DEFAULT_SEPARATOR)
          ++ sep.getD DEFAULT_SEPARATOR))
    ∧ (∀ n : Int,
        SSE.encode (SSE.mk data event id (Option.some (PyRetry.int n))
            comment sep)
          = Except.ok (commentSection comment (sep.getD DEFAULT_SEPARATOR)
              ++ idSection id (sep.getD DEFAULT_SEPARATOR)
              ++ eventSection event (sep.getD DEFAULT_SEPARATOR)
              ++ dataSection data (sep.getD DEFAULT_SEPARATOR)
              ++ ("retry: " ++ toString n ++ sep.getD DEFAULT_SEPARATOR)
              ++ sep.getD DEFAULT_SEPARATOR))
    ∧ SSE.encode (SSE.mk (Option.some "line1\nline2") (Option.some "update")
          (Option.some "42") Option.none Option.none Option.none)
      = Except.ok "id: 42\r\nevent: update\r\ndata: line1\r\ndata: line2\r\n\r\n" := by
  refine ⟨rfl, fun n => rfl, ?_⟩
  rfl

/-- C6: the three newline conventions split identically — for newline-free
`a` and `b`, each of `a ++ CRLF ++ b`, `a ++ CR ++ b`, `a ++ LF ++ b`
splits into `[a, b]` — and the data block consists of exactly one
`"data: "` line per split chunk, in original order. -/
theorem C6_newline_split (a b : String)
    (ha : noNewline a = true) (hb : noNewline b = true) :
    (lineSplit (a ++ "\r\n" ++ b) = [a, b]
      ∧ lineSplit (a ++ "\r" ++ b) = [a, b]
      ∧ lineSplit (a ++ "\n" ++ b) = [a, b])
    ∧ ∀ d sep : String,
        dataSection (Option.some d) sep
          = joinLines ((lineSplit d).map fun chunk => "data: " ++ chunk ++ sep)
        ∧ ((lineSplit d).map fun chunk => "data: " ++ chunk ++ sep).length
          = (lineSplit d).length := by
  refine ⟨lineSplit_sandwich a b ha hb, fun d sep => ⟨?_, ?_⟩⟩
  · have h := foldl_write "data: " sep (lineSplit d) ""
    simpa [dataSection] using h
  · simp

/-- Witness for C6 at concrete inputs: the three conventions between `"a"`
and `"b"`, and the data block of `"x\ny"`. -/
theorem C6_witness :
    (lineSplit ("a" ++ "\r\n" ++ "b") = ["a", "b"]
      ∧ lineSplit ("a" ++ "\r" ++ "b") = ["a", "b"]
      ∧ lineSplit ("a" ++ "\n" ++ "b") = ["a", "b"])
    ∧ dataSection (Option.some "x\ny") "\r\n"
      = joinLines ((lineSplit "x\ny").map fun chunk =>
          "data: " ++ chunk ++ "\r\n") :=
  ⟨(C6_newline_split "a" "b" (by decide) (by decide)).1,
   ((C6_newline_split "a" "b" (by decide) (by decide)).2 "x\ny" "\r\n").1⟩

/-- C7: evaluation at the failing input.  The claim says a newline inside
`id` or `event` is deleted, never split, and `id = "x\ny"` is emitted as
the single line `"id: xy"`.  Both `event_function.py` encoders do exactly
that (and the deletion provably leaves no newline characters behind), but
`event_class.py`'s text class raises `TypeError` on that very input —
its inherited `_encode` substitutes with the bytes literal `b""` on the
str pattern — so no id line is ever emitted there. -/
theorem C7_id_newline_eval :
    SSE.encode (SSE.mk Option.none Option.none (Option.some "x\ny")
        Option.none Option.none Option.none)
      = Except.ok "id: xy\r\n\r\n"
    ∧ event_from_bytes Option.none Option.none (Option.some "x\ny")
        Option.none Option.none Option.none
      = Except.ok "id: xy\r\n\r\n"
    ∧ SSEClassText.encode (SSEClassText.init Option.none Option.none
        (Option.some "x\ny") Option.none Option.none Option.none)
      = Except.error "sequence item 1: expected str instance, bytes found"
    ∧ (∀ s : String, noNewline (lineSub s) = true)
    ∧ (∀ i sep : String,
        idSection (Option.some i) sep = "id: " ++ lineSub i ++ sep)
    ∧ (∀ ev sep : String,
        eventSection (Option.some ev) sep = "event: " ++ lineSub ev ++ sep) := by
  refine ⟨rfl, rfl, rfl, noNewline_lineSub, fun i sep => rfl, fun ev sep => rfl⟩

/-- C8: the dispatch function is the identity on pre-encoded byte buffers:
for every byte string and every dispatch separator, `ensure_bytes` returns
the input unchanged. -/
theorem C8_bytes_passthrough (b : ByteStr) (sep : String) :
    ensure_bytes (EncodeInput.bytes b) sep = Except.ok b := rfl

/-- C9 counterexample: a mapping whose `"sep"` entry already equals the
dispatch separator is left unchanged by the call, so the claim's "the
input dictionary is not left unchanged" does not hold of every call. -/
theorem C9_counterexample :
    (ensure_bytes_dict (FieldDict.mk Option.none Option.none Option.none
        Option.none Option.none (Option.some "\r\n")) "\r\n").2
      = FieldDict.mk Option.none Option.none Option.none Option.none
          Option.none (Option.some "\r\n") := rfl

/-- C9 (amended): the dict branch of `ensure_bytes` assigns the
dispatch-level separator to the caller's mapping's `"sep"` key in place
before constructing the event, so after the call the mapping carries that
separator, and the mapping is left unchanged exactly when its `"sep"`
entry was already the dispatch separator. -/
theorem C9_dict_sep_assignment (d : FieldDict) (sep : String) :
    (ensure_bytes_dict d sep).2
      = FieldDict.mk d.data d.event d.id d.retry d.comment (Option.some sep)
    ∧ ((ensure_bytes_dict d sep).2 = d ↔ d.sep = Option.some sep) := by
  cases d with
  | mk dd de di dr dc ds =>
    refine ⟨rfl, ?_⟩
    simp [ensure_bytes_dict, eq_comm]

/-- Witness for C9 at a concrete input: a mapping with payload `"hello"`
and no `"sep"` entry carries `"\r\n"` after the call and was changed by
it. -/
theorem C9_witness :
    (ensure_bytes_dict (FieldDict.mk (Option.some "hello") Option.none
        Option.none Option.none Option.none Option.none) "\r\n").2
      = FieldDict.mk (Option.some "hello") Option.none Option.none
          Option.none Option.none (Option.some "\r\n") :=
  (C9_dict_sep_assignment (FieldDict.mk (Option.some "hello") Option.none
      Option.none Option.none Option.none Option.none) "\r\n").1

/-- C10: evaluation at the failing input.  A boolean `retry` does pass the
`isinstance(retry, int)` check (Python's `bool` subclasses `int`) in every
encoder, and `event_function.py`'s encoders then succeed with the line
`"retry: True"` or `"retry: False"` before the terminator; but
`event_class.py`'s text class raises `TypeError` for `retry = True` — the
inherited `_encode` writes `str(retry).encode("utf-8")`, a bytes object,
into the `StringIO` text buffer — so "encode succeeds" fails there (as it
does for every present `retry`, integers included). -/
theorem C10_bool_retry_eval :
    PyRetry.isInstInt (PyRetry.bool true) = true
    ∧ PyRetry.isInstInt (PyRetry.bool false) = true
    ∧ SSE.encode (SSE.mk Option.none Option.none Option.none
        (Option.some (PyRetry.bool true)) Option.none Option.none)
      = Except.ok "retry: True\r\n\r\n"
    ∧ SSE.encode (SSE.mk Option.none Option.none Option.none
        (Option.some (PyRetry.bool false)) Option.none Option.none)
      = Except.ok "retry: False\r\n\r\n"
    ∧ event_from_bytes Option.none Option.none Option.none
        (Option.some (PyRetry.bool true)) Option.none Option.none
      = Except.ok "retry: True\r\n\r\n"
    ∧ SSEClassText.encode (SSEClassText.init Option.none Option.none
        Option.none (Option.some (PyRetry.bool true)) Option.none
        Option.none)
      = Except.error "string argument expected, got bytes"
    ∧ SSEClassText.encode (SSEClassText.init Option.none Option.none
        Option.none (Option.some (PyRetry.int 5000)) Option.none
        Option.none)
      = Except.error "string argument expected, got bytes" := by
  refine ⟨rfl, rfl, rfl, rfl, rfl, rfl, rfl⟩

end SSEStarlette
